import Mathlib

/-!
Verification of the inventory management system (`src/inventory_system.py`).

The Python class `Inventory` keeps an insertion-ordered mapping from item
names to integer quantities (`stock_data`), an append-only list of log
entries (`logs`), and persists the mapping as a JSON object to a file.
We model the mapping as an association list `List (String × Int)` with
Python-dict update semantics (update in place, append new keys at the end),
the log as a `List String` of messages (the wall-clock timestamp prefix of
each entry carries no behavioural content and is omitted), and the backing
file as an abstract `FileContent` value.  File-system failures (`OSError`)
are modelled by an explicit boolean input, since they are external
nondeterminism.
-/

namespace InventorySystem

/-- Keys of an association list, in order. -/
def keysOf (s : List (String × Int)) : List String := s.map Prod.fst

/-- `dict.get(k, 0)`: value of the first entry with key `k`, or `0` when absent. -/
def dictGet (s : List (String × Int)) (k : String) : Int :=
  match s with
  | [] => 0
  | (k', v) :: rest => if k' = k then v else dictGet rest k

/-- `k in dict`: membership test. -/
def dictMem (s : List (String × Int)) (k : String) : Bool :=
  s.any (fun p => p.1 == k)

/-- `dict[k] = v`: update the entry for `k` in place, or append it (Python
dicts preserve insertion order and keep the position of an updated key). -/
def dictSet (s : List (String × Int)) (k : String) (v : Int) : List (String × Int) :=
  match s with
  | [] => [(k, v)]
  | (k', v') :: rest => if k' = k then (k, v) :: rest else (k', v') :: dictSet rest k v

/-- `del dict[k]`: remove the key entirely. -/
def dictDel (s : List (String × Int)) (k : String) : List (String × Int) :=
  s.filter (fun p => !(p.1 == k))

/-- State of the `Inventory` object: `stock_data` and `logs` fields. -/
structure Inventory where
  stock_data : List (String × Int)
  logs : List String
deriving Repr, DecidableEq

/-- `_log`: append a (timestamped, in the source) message to the log. -/
def Inventory.log (inv : Inventory) (message : String) : Inventory :=
  { inv with logs := inv.logs ++ [message] }

/-- `_validate_item` succeeds iff the name is non-empty after trimming
whitespace (`item.strip()` in the source). -/
def valid_item (item : String) : Bool :=
  !(item.data.all Char.isWhitespace)

/-- `_validate_qty` succeeds iff the quantity is a positive integer. -/
def valid_qty (qty : Int) : Bool :=
  decide (0 < qty)

/-- `add_item`: validate name then quantity (short-circuit, each validator
logs its own failure), then add `qty` onto the stored quantity. -/
def Inventory.add_item (inv : Inventory) (item : String) (qty : Int) : Inventory :=
  if valid_item item then
    if valid_qty qty then
      let total := dictGet inv.stock_data item + qty
      ({ inv with stock_data := dictSet inv.stock_data item total }).log
        ("Added " ++ toString qty ++ " of " ++ item ++ ". Total: " ++ toString total)
    else
      inv.log ("Invalid quantity: " ++ toString qty ++ ". Must be a positive integer.")
  else
    inv.log ("Invalid item name: " ++ item)

/-- `remove_item`: same validation as `add_item`; absent item is a logged
no-op; otherwise subtract and delete the key when the result is `≤ 0`. -/
def Inventory.remove_item (inv : Inventory) (item : String) (qty : Int) : Inventory :=
  if valid_item item then
    if valid_qty qty then
      if dictMem inv.stock_data item then
        let remaining := dictGet inv.stock_data item - qty
        if remaining ≤ 0 then
          ({ inv with stock_data := dictDel inv.stock_data item }).log
            (item ++ " removed from inventory (out of stock).")
        else
          ({ inv with stock_data := dictSet inv.stock_data item remaining }).log
            ("Removed " ++ toString qty ++ " of " ++ item ++ ". Remaining: " ++ toString remaining)
      else
        inv.log ("Item " ++ item ++ " not found in inventory.")
    else
      inv.log ("Invalid quantity: " ++ toString qty ++ ". Must be a positive integer.")
  else
    inv.log ("Invalid item name: " ++ item)

/-- `get_qty`: pure read, `stock_data.get(item, 0)`. -/
def Inventory.get_qty (inv : Inventory) (item : String) : Int :=
  dictGet inv.stock_data item

/-- `check_low_items`: list the names (in mapping order) whose quantity is
strictly below the threshold, log one entry either way, return the list. -/
def Inventory.check_low_items (inv : Inventory) (threshold : Int) :
    Inventory × List String :=
  let low_items := (inv.stock_data.filter (fun p => p.2 < threshold)).map Prod.fst
  let inv1 :=
    if low_items.isEmpty then inv.log "No low-stock items detected."
    else inv.log ("Low stock items: " ++ String.intercalate ", " low_items)
  (inv1, low_items)

/-- Contents of the backing file as the loader sees them: nonexistent,
unparseable as a JSON object of integers, or a parsed JSON object. -/
inductive FileContent where
  | absent : FileContent
  | malformed : FileContent
  | object (data : List (String × Int)) : FileContent
deriving Repr, DecidableEq

/-- Insert a pair into a key-sorted association list. -/
def insertByKey (p : String × Int) : List (String × Int) → List (String × Int)
  | [] => [p]
  | q :: rest => if p.1 < q.1 then p :: q :: rest else q :: insertByKey p rest

/-- Sort an association list by key (`json.dump(..., sort_keys=True)`
serialises the mapping with its keys in sorted order). -/
def sortByKey : List (String × Int) → List (String × Int)
  | [] => []
  | p :: rest => insertByKey p (sortByKey rest)

/-- `save_data`: write the stock mapping as a sorted-keys JSON object; an
I/O failure (`ioError = true`) is caught, logged, and leaves both the
in-memory state and the file untouched. -/
def Inventory.save_data (inv : Inventory) (file : FileContent) (ioError : Bool) :
    Inventory × FileContent :=
  if ioError then
    (inv.log "Error saving inventory: [io error]", file)
  else
    (inv.log "Inventory saved to inventory.json",
      FileContent.object (sortByKey inv.stock_data))

/-- `load_data`: nonexistent file is a "starting fresh" log entry; a read
or JSON-decode failure is logged and leaves `stock_data` as it was; a
successful parse replaces `stock_data` with the parsed object verbatim. -/
def Inventory.load_data (inv : Inventory) (file : FileContent) (ioError : Bool) :
    Inventory :=
  match file with
  | FileContent.absent => inv.log "No inventory file found. Starting fresh."
  | FileContent.malformed => inv.log "Error loading file: [decode error]"
  | FileContent.object data =>
      if ioError then
        inv.log "Error loading file: [io error]"
      else
        ({ inv with stock_data := data }).log "Loaded inventory from inventory.json"

/-- `__init__`: fresh empty state, then `load_data` from the file. -/
def Inventory.construct (file : FileContent) (ioError : Bool) : Inventory :=
  ({ stock_data := [], logs := [] } : Inventory).load_data file ioError

/-- `__enter__`: returns the ledger itself. -/
def Inventory.enter (inv : Inventory) : Inventory := inv

/-- `__exit__`: always `save_data`; when the scope exited with an error the
error is additionally logged; `__exit__` returns `None` (falsy), so the
returned third component is the exception that keeps propagating. -/
def Inventory.exit (inv : Inventory) (file : FileContent) (saveError : Bool)
    (exc : Option String) : Inventory × FileContent × Option String :=
  let saved := inv.save_data file saveError
  match exc with
  | none => (saved.1, saved.2, none)
  | some e => ((saved.1).log ("Error occurred: " ++ e), saved.2, some e)

/-- One external call to the mutating operations. -/
inductive Op where
  | add (item : String) (qty : Int)
  | remove (item : String) (qty : Int)
deriving Repr, DecidableEq

/-- Apply one call to the inventory state. -/
def applyOp (inv : Inventory) : Op → Inventory
  | Op.add item qty => inv.add_item item qty
  | Op.remove item qty => inv.remove_item item qty

/-- The state before any call: empty stock, empty log. -/
def emptyInventory : Inventory := { stock_data := [], logs := [] }

/-- State after a sequence of `add_item`/`remove_item` calls from empty. -/
def applyOps (ops : List Op) : Inventory := ops.foldl applyOp emptyInventory

/-- Every stored quantity is strictly positive. -/
def StockOk (s : List (String × Int)) : Prop := ∀ p ∈ s, 0 < p.2

@[simp] theorem log_stock_data (inv : Inventory) (m : String) :
    (inv.log m).stock_data = inv.stock_data := rfl

@[simp] theorem log_logs (inv : Inventory) (m : String) :
    (inv.log m).logs = inv.logs ++ [m] := rfl

theorem dictGet_dictSet_same (s : List (String × Int)) (k : String) (v : Int) :
    dictGet (dictSet s k v) k = v := by
  induction s with
  | nil => simp [dictSet, dictGet]
  | cons p rest ih =>
    obtain ⟨k', v'⟩ := p
    by_cases h : k' = k
    · simp [dictSet, h, dictGet]
    · simp [dictSet, h, dictGet, ih]

theorem dictGet_dictSet_ne (s : List (String × Int)) (k k' : String) (v : Int)
    (h : k' ≠ k) : dictGet (dictSet s k v) k' = dictGet s k' := by
  induction s with
  | nil => simp [dictSet, dictGet, Ne.symm h]
  | cons p rest ih =>
    obtain ⟨k₀, v₀⟩ := p
    by_cases h0 : k₀ = k
    · subst h0
      simp [dictSet, dictGet, Ne.symm h]
    · simp [dictSet, h0, dictGet, ih]

theorem dictMem_iff (s : List (String × Int)) (k : String) :
    dictMem s k = true ↔ k ∈ keysOf s := by
  simp [dictMem, keysOf, List.any_eq_true, List.mem_map]

theorem dictGet_of_not_mem (s : List (String × Int)) (k : String)
    (h : k ∉ keysOf s) : dictGet s k = 0 := by
  induction s with
  | nil => rfl
  | cons p rest ih =>
    simp only [keysOf, List.map_cons, List.mem_cons, not_or] at h
    have hr := ih (by simp [keysOf, h.2])
    simp [dictGet, Ne.symm h.1, hr]

theorem not_mem_dictDel (s : List (String × Int)) (k : String) :
    k ∉ keysOf (dictDel s k) := by
  simp only [dictDel, keysOf, List.mem_map, List.mem_filter, not_exists]
  rintro ⟨k', v'⟩ ⟨⟨_, hpred⟩, he⟩
  simp only at he hpred
  subst he
  simp at hpred

theorem dictGet_nonneg (s : List (String × Int)) (k : String)
    (h : StockOk s) : 0 ≤ dictGet s k := by
  induction s with
  | nil => simp [dictGet]
  | cons p rest ih =>
    obtain ⟨k', v'⟩ := p
    by_cases hk : k' = k
    · have := h (k', v') (List.mem_cons_self _ _)
      simp only at this
      simp [dictGet, hk]
      omega
    · exact (by simpa [dictGet, hk] using ih (fun q hq => h q (List.mem_cons_of_mem _ hq)))

theorem mem_dictSet (s : List (String × Int)) (k : String) (v : Int)
    (p : String × Int) (hp : p ∈ dictSet s k v) : p = (k, v) ∨ p ∈ s := by
  induction s with
  | nil =>
    simp only [dictSet, List.mem_singleton] at hp
    exact Or.inl hp
  | cons q rest ih =>
    obtain ⟨k₀, v₀⟩ := q
    by_cases h0 : k₀ = k
    · simp only [dictSet, if_pos h0, List.mem_cons] at hp
      rcases hp with hp | hp
      · exact Or.inl hp
      · exact Or.inr (List.mem_cons_of_mem _ hp)
    · simp only [dictSet, if_neg h0, List.mem_cons] at hp
      rcases hp with hp | hp
      · exact Or.inr (by simp [hp])
      · rcases ih hp with h | h
        · exact Or.inl h
        · exact Or.inr (List.mem_cons_of_mem _ h)

theorem StockOk_dictSet (s : List (String × Int)) (k : String) (v : Int)
    (h : StockOk s) (hv : 0 < v) : StockOk (dictSet s k v) := by
  intro p hp
  rcases mem_dictSet s k v p hp with rfl | hp2
  · exact hv
  · exact h p hp2

theorem StockOk_dictDel (s : List (String × Int)) (k : String)
    (h : StockOk s) : StockOk (dictDel s k) := by
  intro p hp
  exact h p (List.mem_filter.mp hp).1

theorem StockOk_add_item (inv : Inventory) (item : String) (qty : Int)
    (h : StockOk inv.stock_data) : StockOk (inv.add_item item qty).stock_data := by
  unfold Inventory.add_item
  split
  · split
    case isTrue hq =>
      simp only [log_stock_data]
      refine StockOk_dictSet _ _ _ h ?_
      have h1 : 0 < qty := of_decide_eq_true hq
      have h2 := dictGet_nonneg inv.stock_data item h
      omega
    case isFalse _ => simpa using h
  · simpa using h

theorem StockOk_remove_item (inv : Inventory) (item : String) (qty : Int)
    (h : StockOk inv.stock_data) : StockOk (inv.remove_item item qty).stock_data := by
  simp only [Inventory.remove_item]
  split
  · split
    · split
      · split
        · simpa using StockOk_dictDel inv.stock_data item h
        · rename_i hr
          simp only [log_stock_data]
          exact StockOk_dictSet _ _ _ h (by omega)
      · simpa using h
    · simpa using h
  · simpa using h

theorem StockOk_applyOp (inv : Inventory) (op : Op)
    (h : StockOk inv.stock_data) : StockOk (applyOp inv op).stock_data := by
  cases op with
  | add item qty => exact StockOk_add_item inv item qty h
  | remove item qty => exact StockOk_remove_item inv item qty h

theorem StockOk_foldl (ops : List Op) (inv : Inventory)
    (h : StockOk inv.stock_data) : StockOk (ops.foldl applyOp inv).stock_data := by
  induction ops generalizing inv with
  | nil => exact h
  | cons op rest ih => exact ih _ (StockOk_applyOp inv op h)

/-- C1: after any sequence of `add_item`/`remove_item` calls from the empty
stock, every key present in the mapping stores a strictly positive quantity,
and `get_qty` of an absent key is `0`. -/
theorem stock_positive_invariant (ops : List Op) :
    (∀ p ∈ (applyOps ops).stock_data, 0 < p.2) ∧
    (∀ k, k ∉ keysOf (applyOps ops).stock_data → (applyOps ops).get_qty k = 0) := by
  constructor
  · exact StockOk_foldl ops emptyInventory (by intro p hp; simp [emptyInventory] at hp)
  · intro k hk
    exact dictGet_of_not_mem _ _ hk

/-- C1 witness: concrete run, with `get_qty` of an absent key evaluated. -/
theorem stock_positive_invariant_witness :
    (applyOps [Op.add "apple" 10, Op.remove "apple" 3]).get_qty "pear" = 0 :=
  (stock_positive_invariant [Op.add "apple" 10, Op.remove "apple" 3]).2 "pear"
    (by decide)

/-- C2: on a valid item name and a positive quantity, `add_item` adds the
quantity onto the stored quantity (0 when absent) and leaves every other
item unchanged. -/
theorem add_item_adds (inv : Inventory) (item : String) (qty : Int)
    (hitem : valid_item item = true) (hqty : valid_qty qty = true) :
    (inv.add_item item qty).get_qty item = inv.get_qty item + qty ∧
    ∀ other, other ≠ item →
      (inv.add_item item qty).get_qty other = inv.get_qty other := by
  constructor
  · simp only [Inventory.add_item, hitem, hqty, if_pos, Inventory.get_qty,
      log_stock_data]
    exact dictGet_dictSet_same _ _ _
  · intro other hne
    simp only [Inventory.add_item, hitem, hqty, if_pos, Inventory.get_qty,
      log_stock_data]
    exact dictGet_dictSet_ne _ _ _ _ hne

/-- C2 witness: adding 10 then 3 apples yields a stored quantity of 13. -/
theorem add_item_adds_witness :
    ((emptyInventory.add_item "apple" 10).add_item "apple" 3).get_qty "apple" = 13 := by
  have h := add_item_adds (emptyInventory.add_item "apple" 10) "apple" 3
    (by decide) (by decide)
  rw [h.1]
  decide

theorem add_item_invalid_item (inv : Inventory) (item : String) (qty : Int)
    (hbad : valid_item item = false) :
    inv.add_item item qty = inv.log ("Invalid item name: " ++ item) := by
  simp [Inventory.add_item, hbad]

theorem add_item_invalid_qty (inv : Inventory) (item : String) (qty : Int)
    (hi : valid_item item = true) (hbad : valid_qty qty = false) :
    inv.add_item item qty =
      inv.log ("Invalid quantity: " ++ toString qty ++ ". Must be a positive integer.") := by
  simp [Inventory.add_item, hi, hbad]

theorem remove_item_invalid_item (inv : Inventory) (item : String) (qty : Int)
    (hbad : valid_item item = false) :
    inv.remove_item item qty = inv.log ("Invalid item name: " ++ item) := by
  simp [Inventory.remove_item, hbad]

theorem remove_item_invalid_qty (inv : Inventory) (item : String) (qty : Int)
    (hi : valid_item item = true) (hbad : valid_qty qty = false) :
    inv.remove_item item qty =
      inv.log ("Invalid quantity: " ++ toString qty ++ ". Must be a positive integer.") := by
  simp [Inventory.remove_item, hi, hbad]

theorem remove_item_not_found (inv : Inventory) (item : String) (qty : Int)
    (hi : valid_item item = true) (hq : valid_qty qty = true)
    (habs : dictMem inv.stock_data item = false) :
    inv.remove_item item qty =
      inv.log ("Item " ++ item ++ " not found in inventory.") := by
  simp [Inventory.remove_item, hi, hq, habs]

/-- C3: an invalid item name, a non-positive quantity, or removal of an
absent item is a logged no-op: exactly one log entry is appended, the stock
mapping is left unchanged, and the call returns normally (`add_item` and
`remove_item` are total functions, so no error reaches the caller). -/
theorem rejected_calls_are_logged_noops (inv : Inventory) (item : String) (qty : Int) :
    ((valid_item item = false ∨ valid_qty qty = false) →
      (inv.add_item item qty).stock_data = inv.stock_data ∧
      ∃ m, (inv.add_item item qty).logs = inv.logs ++ [m]) ∧
    ((valid_item item = false ∨ valid_qty qty = false ∨
        dictMem inv.stock_data item = false) →
      (inv.remove_item item qty).stock_data = inv.stock_data ∧
      ∃ m, (inv.remove_item item qty).logs = inv.logs ++ [m]) := by
  constructor
  · rintro (hbad | hbad)
    · rw [add_item_invalid_item inv item qty hbad]
      exact ⟨rfl, _, rfl⟩
    · by_cases hi : valid_item item = true
      · rw [add_item_invalid_qty inv item qty hi hbad]
        exact ⟨rfl, _, rfl⟩
      · rw [add_item_invalid_item inv item qty (by simpa using hi)]
        exact ⟨rfl, _, rfl⟩
  · rintro (hbad | hbad | hbad)
    · rw [remove_item_invalid_item inv item qty hbad]
      exact ⟨rfl, _, rfl⟩
    · by_cases hi : valid_item item = true
      · rw [remove_item_invalid_qty inv item qty hi hbad]
        exact ⟨rfl, _, rfl⟩
      · rw [remove_item_invalid_item inv item qty (by simpa using hi)]
        exact ⟨rfl, _, rfl⟩
    · by_cases hi : valid_item item = true
      · by_cases hq : valid_qty qty = true
        · rw [remove_item_not_found inv item qty hi hq hbad]
          exact ⟨rfl, _, rfl⟩
        · rw [remove_item_invalid_qty inv item qty hi (by simpa using hq)]
          exact ⟨rfl, _, rfl⟩
      · rw [remove_item_invalid_item inv item qty (by simpa using hi)]
        exact ⟨rfl, _, rfl⟩

/-- C3 witness: the three rejected adds of the spec and a removal from an
empty stock, each leaving the stock unchanged. -/
theorem rejected_calls_are_logged_noops_witness :
    (emptyInventory.add_item "" 5).stock_data = emptyInventory.stock_data ∧
    (emptyInventory.add_item "x" (-1)).stock_data = emptyInventory.stock_data ∧
    (emptyInventory.add_item "x" 0).stock_data = emptyInventory.stock_data ∧
    (emptyInventory.remove_item "apple" 3).stock_data = emptyInventory.stock_data :=
  ⟨((rejected_calls_are_logged_noops emptyInventory "" 5).1 (Or.inl (by decide))).1,
   ((rejected_calls_are_logged_noops emptyInventory "x" (-1)).1 (Or.inr (by decide))).1,
   ((rejected_calls_are_logged_noops emptyInventory "x" 0).1 (Or.inr (by decide))).1,
   ((rejected_calls_are_logged_noops emptyInventory "apple" 3).2
      (Or.inr (Or.inr (by decide)))).1⟩

theorem mem_keysOf_dictSet (s : List (String × Int)) (k : String) (v : Int) :
    k ∈ keysOf (dictSet s k v) := by
  induction s with
  | nil => simp [dictSet, keysOf]
  | cons p rest ih =>
    obtain ⟨k₀, v₀⟩ := p
    by_cases h0 : k₀ = k
    · simp [dictSet, h0, keysOf]
    · simp only [dictSet, if_neg h0, keysOf, List.map_cons, List.mem_cons]
      exact Or.inr ih

theorem remove_item_present_del (inv : Inventory) (item : String) (qty : Int)
    (hitem : valid_item item = true) (hqty : valid_qty qty = true)
    (hmem : dictMem inv.stock_data item = true)
    (hle : dictGet inv.stock_data item - qty ≤ 0) :
    inv.remove_item item qty =
      ({ inv with stock_data := dictDel inv.stock_data item }).log
        (item ++ " removed from inventory (out of stock).") := by
  simp [Inventory.remove_item, hitem, hqty, hmem, hle]

theorem remove_item_present_set (inv : Inventory) (item : String) (qty : Int)
    (hitem : valid_item item = true) (hqty : valid_qty qty = true)
    (hmem : dictMem inv.stock_data item = true)
    (hgt : 0 < dictGet inv.stock_data item - qty) :
    inv.remove_item item qty =
      ({ inv with
          stock_data := dictSet inv.stock_data item (dictGet inv.stock_data item - qty) }).log
        ("Removed " ++ toString qty ++ " of " ++ item ++ ". Remaining: " ++
          toString (dictGet inv.stock_data item - qty)) := by
  have hnle : ¬(dictGet inv.stock_data item - qty ≤ 0) := by omega
  simp [Inventory.remove_item, hitem, hqty, hmem, hnle]

/-- C4: removing a valid quantity of a present item subtracts it from the
stored quantity; when the result is ≤ 0 (including when more than the
available stock is removed) the key is deleted entirely, with no error, so
`get_qty` becomes 0; otherwise the decremented quantity is stored. -/
theorem remove_item_subtracts (inv : Inventory) (item : String) (qty : Int)
    (hitem : valid_item item = true) (hqty : valid_qty qty = true)
    (hmem : dictMem inv.stock_data item = true) :
    (dictGet inv.stock_data item - qty ≤ 0 →
      item ∉ keysOf (inv.remove_item item qty).stock_data ∧
      (inv.remove_item item qty).get_qty item = 0) ∧
    (0 < dictGet inv.stock_data item - qty →
      item ∈ keysOf (inv.remove_item item qty).stock_data ∧
      (inv.remove_item item qty).get_qty item =
        dictGet inv.stock_data item - qty) := by
  constructor
  · intro hle
    rw [remove_item_present_del inv item qty hitem hqty hmem hle]
    refine ⟨by simpa using not_mem_dictDel inv.stock_data item, ?_⟩
    simp only [Inventory.get_qty, log_stock_data]
    exact dictGet_of_not_mem _ _ (not_mem_dictDel inv.stock_data item)
  · intro hgt
    rw [remove_item_present_set inv item qty hitem hqty hmem hgt]
    refine ⟨by simpa using mem_keysOf_dictSet inv.stock_data item _, ?_⟩
    simp only [Inventory.get_qty, log_stock_data]
    exact dictGet_dictSet_same _ _ _

/-- C4 witness: add 5 apples then remove 5; the quantity reads 0 and the
key is gone from the mapping. -/
theorem remove_item_subtracts_witness :
    "apple" ∉ keysOf ((emptyInventory.add_item "apple" 5).remove_item "apple" 5).stock_data ∧
    ((emptyInventory.add_item "apple" 5).remove_item "apple" 5).get_qty "apple" = 0 :=
  (remove_item_subtracts (emptyInventory.add_item "apple" 5) "apple" 5
    (by decide) (by decide) (by decide)).1 (by decide)

/-- C5: `check_low_items` returns exactly the item names whose quantity is
strictly below the threshold (a quantity equal to the threshold is not
low), appends one log entry whether or not the list is empty, and over
apple 10, banana 5, pear 2 at threshold 5 returns exactly the pear. -/
theorem check_low_items_spec (inv : Inventory) (threshold : Int) :
    (∀ name, name ∈ (inv.check_low_items threshold).2 ↔
      ∃ q, (name, q) ∈ inv.stock_data ∧ q < threshold) ∧
    ((inv.check_low_items threshold).1.logs.length = inv.logs.length + 1) ∧
    (((((emptyInventory.add_item "apple" 10).add_item "banana" 5).add_item
        "pear" 2).check_low_items 5).2 = ["pear"]) := by
  refine ⟨?_, ?_, by decide⟩
  · intro name
    simp only [Inventory.check_low_items, List.mem_map, List.mem_filter,
      decide_eq_true_eq]
    constructor
    · rintro ⟨⟨a, b⟩, ⟨hs, hlt⟩, he⟩
      simp only at he hlt
      subst he
      exact ⟨b, hs, hlt⟩
    · rintro ⟨q, hs, hlt⟩
      exact ⟨(name, q), ⟨hs, hlt⟩, rfl⟩
  · simp only [Inventory.check_low_items]
    split <;> simp

theorem insertByKey_perm (p : String × Int) (s : List (String × Int)) :
    (insertByKey p s).Perm (p :: s) := by
  induction s with
  | nil => exact List.Perm.refl _
  | cons q rest ih =>
    by_cases h : p.1 < q.1
    · simp only [insertByKey, if_pos h]
      exact List.Perm.refl _
    · simp only [insertByKey, if_neg h]
      exact (ih.cons q).trans (List.Perm.swap p q rest)

theorem sortByKey_perm (s : List (String × Int)) : (sortByKey s).Perm s := by
  induction s with
  | nil => exact List.Perm.refl _
  | cons p rest ih =>
    exact (insertByKey_perm p (sortByKey rest)).trans (ih.cons p)

theorem dictGet_perm {s t : List (String × Int)} (h : s.Perm t) :
    (keysOf s).Nodup → ∀ k, dictGet s k = dictGet t k := by
  induction h with
  | nil => intro _ _; rfl
  | cons x h ih =>
    intro hnd k
    obtain ⟨kx, vx⟩ := x
    simp only [keysOf, List.map_cons, List.nodup_cons] at hnd
    simp only [dictGet]
    rw [ih (by simpa [keysOf] using hnd.2) k]
  | swap x y l =>
    intro hnd k
    obtain ⟨kx, vx⟩ := x
    obtain ⟨ky, vy⟩ := y
    simp only [keysOf, List.map_cons, List.nodup_cons, List.mem_cons, not_or] at hnd
    have hne : ky ≠ kx := hnd.1.1
    by_cases h1 : kx = k
    · subst h1
      simp [dictGet, hne]
    · simp [dictGet, h1]
  | trans h₁ h₂ ih₁ ih₂ =>
    intro hnd k
    have hnd2 := ((h₁.map Prod.fst).nodup_iff).mp hnd
    rw [ih₁ hnd k, ih₂ hnd2 k]

/-- C6: saving and then constructing a fresh instance from the same file
(construction runs load) reproduces the stock mapping identically,
key-for-key and value-for-value. -/
theorem save_load_roundtrip (inv : Inventory) (file : FileContent)
    (hnd : (keysOf inv.stock_data).Nodup) :
    (∀ k, (Inventory.construct ((inv.save_data file false).2) false).get_qty k
        = inv.get_qty k) ∧
    (∀ k, k ∈ keysOf (Inventory.construct
          ((inv.save_data file false).2) false).stock_data
        ↔ k ∈ keysOf inv.stock_data) := by
  have hstock : (Inventory.construct ((inv.save_data file false).2) false).stock_data
      = sortByKey inv.stock_data := by
    simp [Inventory.construct, Inventory.save_data, Inventory.load_data]
  have hperm : (sortByKey inv.stock_data).Perm inv.stock_data :=
    sortByKey_perm inv.stock_data
  have hknd : (keysOf (sortByKey inv.stock_data)).Nodup :=
    ((hperm.map Prod.fst).nodup_iff).mpr hnd
  constructor
  · intro k
    simp only [Inventory.get_qty, hstock]
    exact dictGet_perm hperm hknd k
  · intro k
    rw [hstock]
    exact (hperm.map Prod.fst).mem_iff

/-- C6 witness: a two-item stock survives the save/fresh-load round trip. -/
theorem save_load_roundtrip_witness :
    (Inventory.construct ((((emptyInventory.add_item "banana" 5).add_item
        "apple" 7).save_data FileContent.absent false).2) false).get_qty "apple"
      = ((emptyInventory.add_item "banana" 5).add_item "apple" 7).get_qty "apple" :=
  (save_load_roundtrip ((emptyInventory.add_item "banana" 5).add_item "apple" 7)
    FileContent.absent (by decide)).1 "apple"

/-- C7: load never propagates an error: a nonexistent file is logged as
starting fresh with the stock left unchanged (hence empty on construction),
a read or decode failure is logged with the stock exactly as it was before
the attempt, and every case returns normally with exactly one new log
entry (`load_data` is a total function). -/
theorem load_data_error_handling (inv : Inventory) (b : Bool)
    (data : List (String × Int)) :
    ((inv.load_data FileContent.absent b).stock_data = inv.stock_data) ∧
    ((inv.load_data FileContent.absent b).logs =
      inv.logs ++ ["No inventory file found. Starting fresh."]) ∧
    ((inv.load_data FileContent.malformed b).stock_data = inv.stock_data) ∧
    ((inv.load_data (FileContent.object data) true).stock_data = inv.stock_data) ∧
    (∀ file, (inv.load_data file b).logs.length = inv.logs.length + 1) := by
  refine ⟨rfl, rfl, rfl, rfl, ?_⟩
  intro file
  cases file with
  | absent => simp [Inventory.load_data]
  | malformed => simp [Inventory.load_data]
  | object d => cases b <;> simp [Inventory.load_data]

/-- C8: a failure during save is caught and absorbed: one descriptive log
entry is appended, nothing is raised to the caller (`save_data` is a total
function), and both the stock mapping and the file are left unchanged. -/
theorem save_data_failure_absorbed (inv : Inventory) (file : FileContent) :
    ((inv.save_data file true).1.stock_data = inv.stock_data) ∧
    ((inv.save_data file true).2 = file) ∧
    ((inv.save_data file true).1.logs =
      inv.logs ++ ["Error saving inventory: [io error]"]) :=
  ⟨rfl, rfl, rfl⟩

/-- C9: on scoped exit, save runs unconditionally — the save effects are
those of `save_data` with and without a pending error; a pending error is
additionally logged (one entry after the save log) and returned unchanged,
neither suppressed nor replaced, so it keeps propagating; a normal exit
propagates nothing. -/
theorem scoped_exit_always_saves (inv : Inventory) (file : FileContent)
    (b : Bool) (e : String) :
    ((inv.exit file b none).1 = (inv.save_data file b).1) ∧
    ((inv.exit file b none).2.1 = (inv.save_data file b).2) ∧
    ((inv.exit file b none).2.2 = none) ∧
    ((inv.exit file b (some e)).2.1 = (inv.save_data file b).2) ∧
    ((inv.exit file b (some e)).1 =
      ((inv.save_data file b).1).log ("Error occurred: " ++ e)) ∧
    ((inv.exit file b (some e)).2.2 = some e) :=
  ⟨rfl, rfl, rfl, rfl, rfl, rfl⟩

/-- C10: a successful load replaces the stock with the parsed JSON object
verbatim, with no validation; loading an object holding the value -1
leaves a present key with a non-positive stored quantity, so load does not
re-establish the strict-positivity invariant. -/
theorem load_data_no_validation (inv : Inventory)
    (data : List (String × Int)) :
    ((inv.load_data (FileContent.object data) false).stock_data = data) ∧
    ((emptyInventory.load_data (FileContent.object [("x", -1)]) false).get_qty "x"
      = -1) ∧
    ("x" ∈ keysOf (emptyInventory.load_data
        (FileContent.object [("x", -1)]) false).stock_data) := by
  refine ⟨rfl, by decide, by decide⟩

end InventorySystem
